import Mathlib

/-!
Verification of the WooCommerce / OpenAI title-refinement automation
(`script/main.py`) through a shallow embedding in Lean.

The embedding mirrors the source file:
* `generate_slug` — the slug generator (lines 331-349), working on `List Char`;
* `CheckpointManager` / `UpdateLogger` loading (lines 62-72, 99-107) as
  `loadCheckpoint` / `loadLogs` over an abstract `FileState`;
* the retry loops of `OpenAIAPI._make_openai_request` (lines 296-324) and
  `WooCommerceAPI.update_product` (lines 197-215), with per-attempt outcomes
  supplied by an oracle and sleeps recorded explicitly;
* the pagination loop of `WooCommerceAPI.get_all_products` (lines 146-193),
  with the page contents and the `X-WP-TotalPages` header supplied by oracles
  and the unbounded `while True` loop given explicit fuel;
* `TitleRefinementAutomation.process_single_product` (lines 380-471) and
  `TitleRefinementAutomation.run` (lines 473-542) as state transformers over
  `AutomationState`, returning the external calls they make as an `Event`
  trace.  The external collaborators (OpenAI, WooCommerce, the clock) are
  modelled by an `Oracles` record giving the outcome of each boundary call;
  wall-clock sleeping and console printing are not modelled.
-/

namespace WkReifen

/-- Models Python `str.lower` restricted to the characters this domain uses:
ASCII uppercase letters are lowered and the German letters Ä/Ö/Ü are lowered
to ä/ö/ü; every other character is returned unchanged. -/
def pyLowerChar (c : Char) : Char :=
  if 'A' ≤ c ∧ c ≤ 'Z' then Char.ofNat (c.toNat + 32)
  else if c = 'Ä' then 'ä'
  else if c = 'Ö' then 'ö'
  else if c = 'Ü' then 'ü'
  else c

/-- Python `s.lower()` applied to a whole string. -/
def pyLower (s : String) : String := String.mk (s.data.map pyLowerChar)

/-- Python `s.replace(a, r)` for a single-character pattern `a`,
replacing it with the character list `r`. -/
def replaceCharStr (a : Char) (r : List Char) (l : List Char) : List Char :=
  l.flatMap (fun c => if c = a then r else [c])

/-- The character class kept by `re.sub(r'[^a-z0-9\-]', '', slug)`
(line 341): lowercase ASCII letters, ASCII digits and the hyphen. -/
def isAllowedChar (c : Char) : Bool :=
  (decide ('a' ≤ c) && decide (c ≤ 'z')) ||
  (decide ('0' ≤ c) && decide (c ≤ '9')) ||
  c == '-'

/-- Worker for `collapseHyphens`; `prevHyphen` records whether the previous
emitted character was a hyphen, so that a run of hyphens emits only one. -/
def collapseHyphensAux (prevHyphen : Bool) : List Char → List Char
  | [] => []
  | c :: rest =>
    if c = '-' then
      if prevHyphen then collapseHyphensAux true rest
      else '-' :: collapseHyphensAux true rest
    else c :: collapseHyphensAux false rest

/-- Models `re.sub(r'-+', '-', slug)` (line 344): every maximal run of
hyphens is replaced by a single hyphen. -/
def collapseHyphens (l : List Char) : List Char := collapseHyphensAux false l

/-- Drops the trailing characters of `l` satisfying `p` (the right half of
Python `str.strip`). -/
def dropTrailingWhile (p : Char → Bool) : List Char → List Char
  | [] => []
  | c :: rest =>
    let r := dropTrailingWhile p rest
    if r.isEmpty && p c then [] else c :: r

/-- Python `str.strip(chars)` as a predicate-driven strip of both ends. -/
def pyStripWhile (p : Char → Bool) (l : List Char) : List Char :=
  dropTrailingWhile p (l.dropWhile p)

/-- ASCII whitespace stripped by Python `str.strip()` with no argument. -/
def isPyWhitespace (c : Char) : Bool :=
  c == ' ' || c == '\t' || c == '\n' || c == '\r' ||
  c == Char.ofNat 11 || c == Char.ofNat 12

/-- Python `s.strip()`
(the whitespace strip applied to the OpenAI response content, line 306). -/
def pyStrip (s : String) : String := String.mk (pyStripWhile isPyWhitespace s.data)

/-- Python `s.strip('"\'')`
(the quote strip applied to the OpenAI response content, line 309). -/
def pyStripQuotes (s : String) : String :=
  String.mk (pyStripWhile (fun c => c == '"' || c == '\'') s.data)

/-- `generate_slug` (lines 331-349): lowercase, replace spaces with hyphens,
transliterate the four German characters, drop everything outside
`[a-z0-9-]`, collapse hyphen runs, and strip leading/trailing hyphens. -/
def generate_slug (title : String) : String :=
  let slug := (title.data.map pyLowerChar).map (fun c => if c = ' ' then '-' else c)
  let slug := replaceCharStr 'ä' ['a', 'e'] slug
  let slug := replaceCharStr 'ö' ['o', 'e'] slug
  let slug := replaceCharStr 'ü' ['u', 'e'] slug
  let slug := replaceCharStr 'ß' ['s', 's'] slug
  let slug := slug.filter isAllowedChar
  let slug := collapseHyphens slug
  let slug := pyStripWhile (fun c => c == '-') slug
  String.mk slug

/-- Decides `noDoubleHyphen`: no two consecutive characters of the list are
both hyphens. -/
def noDoubleHyphen : List Char → Bool
  | [] => true
  | [_] => true
  | a :: b :: rest => (!(a == '-' && b == '-')) && noDoubleHyphen (b :: rest)

/-- One catalog product as the pipeline reads it: the platform id
(`product["id"]`), the current title (`product["name"]`) and the nested
`yoast_head_json.og_description` field, absent when the nested structure or
key is missing. -/
structure Product where
  id : Nat
  name : String
  yoastOgDescription : Option String
deriving DecidableEq, Repr

/-- `get_og_description` (lines 352-357): the nested description or `""`. -/
def get_og_description (product : Product) : String :=
  product.yoastOgDescription.getD ""

/-- The run-statistics counters (`self.stats`, lines 371-378). -/
structure Stats where
  total : Nat
  processed : Nat
  updated : Nat
  skippedDuplicate : Nat
  skippedUnchanged : Nat
  failed : Nat
deriving DecidableEq, Repr

/-- The all-zero statistics `TitleRefinementAutomation.__init__` starts with. -/
def initStats : Stats := ⟨0, 0, 0, 0, 0, 0⟩

/-- One audit-log entry (`UpdateLogger.log_update`, lines 109-124); the
timestamp is the abstract clock value at the append. -/
structure LogEntry where
  item_id : Nat
  previous_title : String
  new_title : String
  new_slug : String
  seo_title : String
  previous_description : String
  new_description : String
  updated_at : Nat
deriving DecidableEq, Repr

/-- One `meta_data` key/value pair of the WooCommerce update payload. -/
structure MetaEntry where
  key : String
  value : String
deriving DecidableEq, Repr

/-- The update payload built at lines 430-447. -/
structure UpdateData where
  name : String
  slug : String
  meta_data : List MetaEntry
deriving DecidableEq, Repr

/-- Builds the `update_data` dictionary of lines 430-447. -/
def build_update_data (refined_title new_slug refined_description : String) :
    UpdateData :=
  { name := refined_title
    slug := new_slug
    meta_data :=
      [⟨"_yoast_wpseo_title", refined_title⟩,
       ⟨"_yoast_wpseo_metadesc", refined_description⟩,
       ⟨"_yoast_wpseo_focuskw", refined_title⟩] }

/-- `UpdateLogger.log_update` (lines 109-124): appends one entry. The
synchronous save to disk is abstracted away; the in-memory list is the
authoritative model of the audit log. -/
def log_update (logs : List LogEntry) (item_id : Nat)
    (previous_title new_title new_slug seo_title : String)
    (previous_description new_description : String) (now : Nat) :
    List LogEntry :=
  logs ++ [⟨item_id, previous_title, new_title, new_slug, seo_title,
            previous_description, new_description, now⟩]

/-- The mutable state of one `TitleRefinementAutomation` instance: the
checkpoint set (`CheckpointManager.processed_ids`), the audit log
(`UpdateLogger.logs`) and the run statistics. -/
structure AutomationState where
  processedIds : Finset Nat
  logs : List LogEntry
  stats : Stats

/-- The state of a fresh `TitleRefinementAutomation` constructed over empty
stores. -/
def initState : AutomationState := ⟨∅, [], initStats⟩

/-- The outcome of each external boundary call, as seen by the pipeline:
`refineTitle`/`refineDescription` are the OpenAI wrappers after their
internal retries (`None` = absent), `updateProduct` is the WooCommerce
update after its internal retries (`false` = failure), and `now` is the
clock read for audit timestamps. -/
structure Oracles where
  refineTitle : String → Option String
  refineDescription : String → String → Option String
  updateProduct : Nat → UpdateData → Bool
  now : Nat

/-- The external calls the pipeline makes for an item, in order. -/
inductive Event where
  | refineTitleCall (original_title : String)
  | refineDescriptionCall (original_description refined_title : String)
  | applyUpdateCall (product_id : Nat) (data : UpdateData)
deriving DecidableEq, Repr

/-- `process_single_product` (lines 380-471) as a state transformer.
Returns the new state, the Python return value, and the trace of external
calls made for this item. -/
def processSingleProduct (o : Oracles) (s : AutomationState) (product : Product) :
    AutomationState × Bool × List Event :=
  let product_id := product.id
  let original_title := product.name
  let original_description := get_og_description product
  if product_id ∈ s.processedIds then
    ({ s with stats :=
        { s.stats with skippedDuplicate := s.stats.skippedDuplicate + 1 } },
     true, [])
  else
    match o.refineTitle original_title with
    | none =>
        ({ s with stats := { s.stats with failed := s.stats.failed + 1 } },
         false, [Event.refineTitleCall original_title])
    | some refined_title =>
        let new_slug := generate_slug refined_title
        match o.refineDescription original_description refined_title with
        | none =>
            ({ s with stats := { s.stats with failed := s.stats.failed + 1 } },
             false,
             [Event.refineTitleCall original_title,
              Event.refineDescriptionCall original_description refined_title])
        | some refined_description =>
            if pyLower refined_title = pyLower original_title ∧
               refined_description = original_description then
              ({ s with
                  processedIds := insert product_id s.processedIds,
                  stats := { s.stats with
                    skippedUnchanged := s.stats.skippedUnchanged + 1 } },
               true,
               [Event.refineTitleCall original_title,
                Event.refineDescriptionCall original_description refined_title])
            else
              let update_data :=
                build_update_data refined_title new_slug refined_description
              if o.updateProduct product_id update_data then
                ({ s with
                    processedIds := insert product_id s.processedIds,
                    logs := log_update s.logs product_id original_title
                      refined_title new_slug refined_title
                      original_description refined_description o.now,
                    stats := { s.stats with updated := s.stats.updated + 1 } },
                 true,
                 [Event.refineTitleCall original_title,
                  Event.refineDescriptionCall original_description refined_title,
                  Event.applyUpdateCall product_id update_data])
              else
                ({ s with stats :=
                    { s.stats with failed := s.stats.failed + 1 } },
                 false,
                 [Event.refineTitleCall original_title,
                  Event.refineDescriptionCall original_description refined_title,
                  Event.applyUpdateCall product_id update_data])

/-- The dry-run body of the loop in `run` (lines 506-533).  Note the Python
truthiness test `if refined_title:` — an empty refined title counts as
failed here, unlike the `is None` test of `process_single_product`. -/
def dryRunStep (o : Oracles) (s : AutomationState) (product : Product) :
    AutomationState × List Event :=
  let product_id := product.id
  let original_title := product.name
  let original_description := get_og_description product
  if product_id ∈ s.processedIds then
    ({ s with stats :=
        { s.stats with skippedDuplicate := s.stats.skippedDuplicate + 1 } }, [])
  else
    match o.refineTitle original_title with
    | some refined_title =>
        if refined_title = "" then
          ({ s with stats := { s.stats with failed := s.stats.failed + 1 } },
           [Event.refineTitleCall original_title])
        else
          let _new_slug := generate_slug refined_title
          let _refined_description :=
            o.refineDescription original_description refined_title
          ({ s with stats :=
              { s.stats with processed := s.stats.processed + 1 } },
           [Event.refineTitleCall original_title,
            Event.refineDescriptionCall original_description refined_title])
    | none =>
        ({ s with stats := { s.stats with failed := s.stats.failed + 1 } },
         [Event.refineTitleCall original_title])

/-- The per-item loop of `run` (lines 503-539), iterating the fetched
products. In the non-dry branch, `process_single_product` is followed by
`self.stats["processed"] += 1` (line 536).  The inter-item sleep is pure
timing and is not modelled. -/
def runGo (o : Oracles) (dry_run : Bool) : List Product → AutomationState →
    AutomationState × List Event
  | [], s => (s, [])
  | product :: rest, s =>
    let step :=
      if dry_run then dryRunStep o s product
      else
        let r := processSingleProduct o s product
        ({ r.1 with stats :=
            { r.1.stats with processed := r.1.stats.processed + 1 } }, r.2.2)
    let r2 := runGo o dry_run rest step.1
    (r2.1, step.2 ++ r2.2)

/-- The truncation `if limit: products = products[:limit]` (lines 494-496);
Python truthiness makes `limit = 0` a no-op. -/
def applyLimit (limit : Option Nat) (products : List Product) : List Product :=
  match limit with
  | some n => if n ≠ 0 then products.take n else products
  | none => products

/-- `run` (lines 473-542) with the fetched product list supplied as an
argument (catalog fetching is the collaborator modelled by
`get_all_products` below; a fetch failure aborts before any item, which is
the `products = []`-like early return).  Returns the final state and the
trace of external calls. -/
def run (o : Oracles) (dry_run : Bool) (limit : Option Nat)
    (products : List Product) (s : AutomationState) :
    AutomationState × List Event :=
  if products = [] then (s, [])
  else
    let ps := applyLimit limit products
    runGo o dry_run ps { s with stats := { s.stats with total := ps.length } }

/-- The pagination loop of `get_all_products` (lines 146-193).  `pages p` is
the JSON body the source returns for page `p`, `totalPagesHdr p` the
`X-WP-TotalPages` header of that response.  The unbounded `while True` loop
is embedded with explicit fuel (the source loop has no intrinsic bound);
theorems quantify over sufficient fuel.  Returns the accumulated products
and the list of page numbers requested, in order. -/
def get_all_productsGo {α : Type} (pages : Nat → List α)
    (totalPagesHdr : Nat → Nat) : Nat → Nat → List α × List Nat
  | 0, _ => ([], [])
  | fuel + 1, page =>
    let products := pages page
    if products.isEmpty then ([], [page])
    else if totalPagesHdr page ≤ page then (products, [page])
    else
      let r := get_all_productsGo pages totalPagesHdr fuel (page + 1)
      (products ++ r.1, page :: r.2)

/-- `get_all_products` starts at page 1. -/
def get_all_products {α : Type} (pages : Nat → List α)
    (totalPagesHdr : Nat → Nat) (fuel : Nat) : List α × List Nat :=
  get_all_productsGo pages totalPagesHdr fuel 1

/-- The outcome of one attempt inside `_make_openai_request` (lines 296-324):
a successful response with raw content, a `requests` transport error
(`RequestException`), or a well-formed HTTP response whose JSON lacks the
expected shape (`KeyError` / `IndexError`). -/
inductive OpenAIAttemptOutcome where
  | success (content : String)
  | transientError
  | malformedResponse
deriving DecidableEq, Repr

/-- The retry loop of `_make_openai_request` (lines 296-324).  `outcome i`
is what attempt `i` (0-based) does; returns the result, the number of
attempts made, and the list of sleep durations (each
`delay_between_requests * 2`, line 316).  On success the content is
stripped of whitespace and then of enclosing quotes (lines 306-309). -/
def openaiRetryGo (outcome : Nat → OpenAIAttemptOutcome) (max_retries : Nat)
    (delay : ℚ) (attempt : Nat) : Nat → Option String × Nat × List ℚ
  | 0 => (none, 0, [])
  | remaining + 1 =>
    match outcome attempt with
    | .success content => (some (pyStripQuotes (pyStrip content)), 1, [])
    | .malformedResponse => (none, 1, [])
    | .transientError =>
      if attempt < max_retries - 1 then
        let r := openaiRetryGo outcome max_retries delay (attempt + 1) remaining
        (r.1, r.2.1 + 1, delay * 2 :: r.2.2)
      else (none, 1, [])

/-- `_make_openai_request` runs its loop for `range(max_retries)`. -/
def make_openai_request (outcome : Nat → OpenAIAttemptOutcome)
    (max_retries : Nat) (delay : ℚ) : Option String × Nat × List ℚ :=
  openaiRetryGo outcome max_retries delay 0 max_retries

/-- The retry loop of `WooCommerceAPI.update_product` (lines 197-215).
`outcome i = true` means attempt `i` succeeds (`return True`); `false`
means a `RequestException`.  Returns the result, the number of attempts,
and the sleeps (each `delay_between_requests * 2`, line 210). -/
def updateProductRetryGo (outcome : Nat → Bool) (max_retries : Nat)
    (delay : ℚ) (attempt : Nat) : Nat → Bool × Nat × List ℚ
  | 0 => (false, 0, [])
  | remaining + 1 =>
    if outcome attempt then (true, 1, [])
    else if attempt < max_retries - 1 then
      let r := updateProductRetryGo outcome max_retries delay (attempt + 1) remaining
      (r.1, r.2.1 + 1, delay * 2 :: r.2.2)
    else (false, 1, [])

/-- `update_product` runs its loop for `range(max_retries)`. -/
def update_product (outcome : Nat → Bool) (max_retries : Nat) (delay : ℚ) :
    Bool × Nat × List ℚ :=
  updateProductRetryGo outcome max_retries delay 0 max_retries

/-- `ScriptConfig` (lines 37-42); `delay_between_requests` is the float
`1.0`, modelled as the rational `1`. -/
structure ScriptConfig where
  delay_between_requests : ℚ := 1
  max_retries : Nat := 3
  checkpoint_file : String := "processed_items.json"
  log_file : String := "update_logs.json"

/-- The module-level `script_config = ScriptConfig()` (line 48). -/
def script_config : ScriptConfig := {}

/-- The observable condition of a durable store file at construction time:
missing, present but unreadable or invalid JSON (`IOError` /
`json.JSONDecodeError` — exactly the exceptions the source catches), or
present with parsed data. -/
inductive FileState (α : Type) where
  | absent
  | corrupt
  | valid (data : α)

/-- `CheckpointManager._load_checkpoint` (lines 62-72): the loaded id set
paired with whether a warning was printed.  A corrupt file warns (line 70)
and yields the empty set; a missing file silently yields the empty set. -/
def loadCheckpoint : FileState (List Nat) → Finset Nat × Bool
  | .absent => (∅, false)
  | .corrupt => (∅, true)
  | .valid ids => (ids.toFinset, false)

/-- `UpdateLogger._load_logs` (lines 99-107): the loaded entries paired with
whether a warning was printed.  The corrupt branch (lines 105-106) returns
`[]` without printing anything. -/
def loadLogs : FileState (List LogEntry) → List LogEntry × Bool
  | .absent => ([], false)
  | .corrupt => ([], false)
  | .valid entries => (entries, false)

/-- The sum of the four terminal-outcome buckets of `Stats`. -/
def bucketSum (st : Stats) : Nat :=
  st.updated + st.skippedDuplicate + st.skippedUnchanged + st.failed

/-! ## Lemmas about the slug generator -/

theorem mem_collapseHyphensAux {c : Char} :
    ∀ (l : List Char) (b : Bool), c ∈ collapseHyphensAux b l → c = '-' ∨ c ∈ l := by
  intro l
  induction l with
  | nil => intro b h; simp [collapseHyphensAux] at h
  | cons a rest ih =>
    intro b h
    by_cases ha : a = '-'
    · cases b with
      | true =>
        simp only [collapseHyphensAux, ha, if_pos, if_true] at h
        rcases ih true h with h1 | h1
        · exact Or.inl h1
        · exact Or.inr (List.mem_cons_of_mem _ h1)
      | false =>
        simp only [collapseHyphensAux, ha, if_pos, if_false] at h
        rcases List.mem_cons.mp h with h1 | h1
        · exact Or.inl h1
        · rcases ih true h1 with h2 | h2
          · exact Or.inl h2
          · exact Or.inr (List.mem_cons_of_mem _ h2)
    · simp only [collapseHyphensAux, ha, if_neg, if_false] at h
      rcases List.mem_cons.mp h with h1 | h1
      · exact Or.inr (h1 ▸ List.mem_cons_self a rest)
      · rcases ih false h1 with h2 | h2
        · exact Or.inl h2
        · exact Or.inr (List.mem_cons_of_mem _ h2)

theorem head?_collapseHyphensAux_true :
    ∀ l : List Char, (collapseHyphensAux true l).head? ≠ some '-' := by
  intro l
  induction l with
  | nil => simp [collapseHyphensAux]
  | cons a rest ih =>
    by_cases ha : a = '-'
    · simpa [collapseHyphensAux, ha] using ih
    · simp [collapseHyphensAux, ha]

theorem noDoubleHyphen_tail {a : Char} {l : List Char}
    (h : noDoubleHyphen (a :: l) = true) : noDoubleHyphen l = true := by
  cases l with
  | nil => simp [noDoubleHyphen]
  | cons d rest =>
    simp only [noDoubleHyphen, Bool.and_eq_true] at h
    exact h.2

theorem noDoubleHyphen_cons_of {a : Char} {l : List Char}
    (h1 : noDoubleHyphen l = true)
    (h2 : ∀ d, l.head? = some d → ¬(a = '-' ∧ d = '-')) :
    noDoubleHyphen (a :: l) = true := by
  cases l with
  | nil => simp [noDoubleHyphen]
  | cons d rest =>
    have hd := h2 d rfl
    simp only [noDoubleHyphen, Bool.and_eq_true, Bool.not_eq_true',
      Bool.and_eq_false_iff, beq_eq_false_iff_ne, ne_eq]
    refine ⟨?_, h1⟩
    by_cases had : a = '-'
    · exact Or.inr (fun hdd => hd ⟨had, hdd⟩)
    · exact Or.inl had

theorem noDoubleHyphen_pair {a d : Char} {l : List Char}
    (h : noDoubleHyphen (a :: l) = true) (hd : l.head? = some d) :
    ¬(a = '-' ∧ d = '-') := by
  cases l with
  | nil => simp at hd
  | cons e rest =>
    simp only [List.head?_cons, Option.some.injEq] at hd
    subst hd
    simp only [noDoubleHyphen, Bool.and_eq_true, Bool.not_eq_true',
      Bool.and_eq_false_iff, beq_eq_false_iff_ne, ne_eq] at h
    rcases h.1 with h1 | h1
    · exact fun hc => h1 hc.1
    · exact fun hc => h1 hc.2

theorem noDoubleHyphen_collapseHyphensAux :
    ∀ (l : List Char) (b : Bool), noDoubleHyphen (collapseHyphensAux b l) = true := by
  intro l
  induction l with
  | nil => intro b; simp [collapseHyphensAux, noDoubleHyphen]
  | cons a rest ih =>
    intro b
    by_cases ha : a = '-'
    · cases b with
      | true => simpa [collapseHyphensAux, ha] using ih true
      | false =>
        simp only [collapseHyphensAux, ha, if_pos, if_false]
        refine noDoubleHyphen_cons_of (ih true) ?_
        intro d hd hc
        exact head?_collapseHyphensAux_true rest (hc.2 ▸ hd)
    · simp only [collapseHyphensAux, ha, if_neg, if_false]
      exact noDoubleHyphen_cons_of (ih false) (fun d _ hc => ha hc.1)

theorem noDoubleHyphen_dropWhile (p : Char → Bool) :
    ∀ l : List Char, noDoubleHyphen l = true →
      noDoubleHyphen (l.dropWhile p) = true := by
  intro l
  induction l with
  | nil => simp
  | cons a rest ih =>
    intro h
    rw [List.dropWhile_cons]
    by_cases hp : p a = true
    · simp only [hp, if_true]
      exact ih (noDoubleHyphen_tail h)
    · simp only [hp, if_false]
      exact h

theorem mem_dropTrailingWhile (p : Char → Bool) {c : Char} :
    ∀ l : List Char, c ∈ dropTrailingWhile p l → c ∈ l := by
  intro l
  induction l with
  | nil => simp [dropTrailingWhile]
  | cons a rest ih =>
    intro h
    simp only [dropTrailingWhile] at h
    split at h
    · simp at h
    · rcases List.mem_cons.mp h with h1 | h1
      · exact h1 ▸ List.mem_cons_self a rest
      · exact List.mem_cons_of_mem _ (ih h1)

theorem head?_dropTrailingWhile (p : Char → Bool) {c : Char} :
    ∀ l : List Char, (dropTrailingWhile p l).head? = some c → l.head? = some c := by
  intro l
  cases l with
  | nil => simp [dropTrailingWhile]
  | cons a rest =>
    intro h
    simp only [dropTrailingWhile] at h
    split at h
    · simp at h
    · simpa using h

theorem getLast?_dropTrailingWhile (p : Char → Bool) {c : Char} :
    ∀ l : List Char, (dropTrailingWhile p l).getLast? = some c → p c = false := by
  intro l
  induction l with
  | nil => simp [dropTrailingWhile]
  | cons a rest ih =>
    intro h
    simp only [dropTrailingWhile] at h
    split at h
    · simp at h
    · rename_i hcond
      rcases hrl : dropTrailingWhile p rest with _ | ⟨d, r'⟩
      · rw [hrl] at h hcond
        simp only [List.getLast?_singleton, Option.some.injEq] at h
        subst h
        simpa using hcond
      · rw [hrl] at h
        rw [List.getLast?_cons_cons] at h
        exact ih (by rw [hrl]; exact h)

theorem noDoubleHyphen_dropTrailingWhile (p : Char → Bool) :
    ∀ l : List Char, noDoubleHyphen l = true →
      noDoubleHyphen (dropTrailingWhile p l) = true := by
  intro l
  induction l with
  | nil => simp [dropTrailingWhile]
  | cons a rest ih =>
    intro h
    simp only [dropTrailingWhile]
    split
    · simp [noDoubleHyphen]
    · refine noDoubleHyphen_cons_of (ih (noDoubleHyphen_tail h)) ?_
      intro d hd
      exact noDoubleHyphen_pair h (head?_dropTrailingWhile p rest hd)

/-- C5: `generate_slug` applies, in source order, lowercasing, space→hyphen
replacement, the German transliterations (before the character-class
filter), the `[a-z0-9-]` filter, hyphen-run collapsing, and hyphen
trimming (that order is the definition of `generate_slug` itself); as a
consequence every output is a pure function of the input containing only
lowercase ASCII letters, digits and single hyphens, with no leading or
trailing hyphen, and the documented example renders `Ü` as `ue`. -/
theorem slug_generation_sound :
    (∀ t : String,
      (∀ c ∈ (generate_slug t).data, isAllowedChar c = true) ∧
      noDoubleHyphen (generate_slug t).data = true ∧
      (generate_slug t).data.head? ≠ some '-' ∧
      (generate_slug t).data.getLast? ≠ some '-') ∧
    generate_slug "Continental ÜberGrip 225/45 R17" = "continental-uebergrip-22545-r17" := by
  constructor
  · intro t
    have hdata : (generate_slug t).data =
        pyStripWhile (fun c => c == '-')
          (collapseHyphens
            (List.filter isAllowedChar
              (replaceCharStr 'ß' ['s', 's']
                (replaceCharStr 'ü' ['u', 'e']
                  (replaceCharStr 'ö' ['o', 'e']
                    (replaceCharStr 'ä' ['a', 'e']
                      ((t.data.map pyLowerChar).map
                        (fun c => if c = ' ' then '-' else c)))))))) := rfl
    rw [hdata]
    set F := List.filter isAllowedChar
      (replaceCharStr 'ß' ['s', 's']
        (replaceCharStr 'ü' ['u', 'e']
          (replaceCharStr 'ö' ['o', 'e']
            (replaceCharStr 'ä' ['a', 'e']
              ((t.data.map pyLowerChar).map
                (fun c => if c = ' ' then '-' else c)))))) with hF
    refine ⟨?_, ?_, ?_, ?_⟩
    · intro c hc
      have h1 := mem_dropTrailingWhile (fun c => c == '-') _ hc
      have h2 : c ∈ collapseHyphens F :=
        (List.dropWhile_sublist _).subset h1
      rcases mem_collapseHyphensAux F false h2 with h3 | h3
      · subst h3; decide
      · exact List.of_mem_filter h3
    · exact noDoubleHyphen_dropTrailingWhile _ _
        (noDoubleHyphen_dropWhile _ _ (noDoubleHyphen_collapseHyphensAux F false))
    · intro h
      have h1 := head?_dropTrailingWhile (fun c => c == '-') _ h
      have h2 := List.head?_dropWhile_not (fun c => c == '-') (collapseHyphens F)
      rw [h1] at h2
      simp at h2
    · intro h
      have h1 := getLast?_dropTrailingWhile (fun c => c == '-') _ h
      simp at h1
  · decide

/-- C5 witness: the general part of `slug_generation_sound` evaluated at a
concrete title, plus the documented concrete example. -/
theorem slug_generation_sound_witness :
    noDoubleHyphen (generate_slug "  Pirelli -- P Zero  ").data = true ∧
    generate_slug "Continental ÜberGrip 225/45 R17" = "continental-uebergrip-22545-r17" :=
  ⟨(slug_generation_sound.1 "  Pirelli -- P Zero  ").2.1, slug_generation_sound.2⟩

/-! ## Branch lemmas for `processSingleProduct` -/

theorem psp_dup (o : Oracles) (s : AutomationState) (product : Product)
    (h : product.id ∈ s.processedIds) :
    processSingleProduct o s product =
      ({ s with stats :=
          { s.stats with skippedDuplicate := s.stats.skippedDuplicate + 1 } },
       true, []) := by
  simp [processSingleProduct, h]

theorem psp_title_fail (o : Oracles) (s : AutomationState) (product : Product)
    (h : product.id ∉ s.processedIds)
    (ht : o.refineTitle product.name = none) :
    processSingleProduct o s product =
      ({ s with stats := { s.stats with failed := s.stats.failed + 1 } },
       false, [Event.refineTitleCall product.name]) := by
  simp [processSingleProduct, h, ht]

theorem psp_desc_fail (o : Oracles) (s : AutomationState) (product : Product)
    {rt : String} (h : product.id ∉ s.processedIds)
    (ht : o.refineTitle product.name = some rt)
    (hd : o.refineDescription (get_og_description product) rt = none) :
    processSingleProduct o s product =
      ({ s with stats := { s.stats with failed := s.stats.failed + 1 } },
       false,
       [Event.refineTitleCall product.name,
        Event.refineDescriptionCall (get_og_description product) rt]) := by
  simp [processSingleProduct, h, ht, hd]

theorem psp_unchanged (o : Oracles) (s : AutomationState) (product : Product)
    {rt rd : String} (h : product.id ∉ s.processedIds)
    (ht : o.refineTitle product.name = some rt)
    (hd : o.refineDescription (get_og_description product) rt = some rd)
    (hc : pyLower rt = pyLower product.name ∧ rd = get_og_description product) :
    processSingleProduct o s product =
      ({ s with
          processedIds := insert product.id s.processedIds,
          stats := { s.stats with
            skippedUnchanged := s.stats.skippedUnchanged + 1 } },
       true,
       [Event.refineTitleCall product.name,
        Event.refineDescriptionCall (get_og_description product) rt]) := by
  simp [processSingleProduct, h, ht, hd, hc.1, hc.2]

theorem psp_update_success (o : Oracles) (s : AutomationState) (product : Product)
    {rt rd : String} (h : product.id ∉ s.processedIds)
    (ht : o.refineTitle product.name = some rt)
    (hd : o.refineDescription (get_og_description product) rt = some rd)
    (hc : ¬(pyLower rt = pyLower product.name ∧ rd = get_og_description product))
    (hu : o.updateProduct product.id
      (build_update_data rt (generate_slug rt) rd) = true) :
    processSingleProduct o s product =
      ({ s with
          processedIds := insert product.id s.processedIds,
          logs := log_update s.logs product.id product.name rt (generate_slug rt)
            rt (get_og_description product) rd o.now,
          stats := { s.stats with updated := s.stats.updated + 1 } },
       true,
       [Event.refineTitleCall product.name,
        Event.refineDescriptionCall (get_og_description product) rt,
        Event.applyUpdateCall product.id
          (build_update_data rt (generate_slug rt) rd)]) := by
  simp [processSingleProduct, h, ht, hd, hc, hu]

theorem psp_update_fail (o : Oracles) (s : AutomationState) (product : Product)
    {rt rd : String} (h : product.id ∉ s.processedIds)
    (ht : o.refineTitle product.name = some rt)
    (hd : o.refineDescription (get_og_description product) rt = some rd)
    (hc : ¬(pyLower rt = pyLower product.name ∧ rd = get_og_description product))
    (hu : o.updateProduct product.id
      (build_update_data rt (generate_slug rt) rd) = false) :
    processSingleProduct o s product =
      ({ s with stats := { s.stats with failed := s.stats.failed + 1 } },
       false,
       [Event.refineTitleCall product.name,
        Event.refineDescriptionCall (get_og_description product) rt,
        Event.applyUpdateCall product.id
          (build_update_data rt (generate_slug rt) rd)]) := by
  simp [processSingleProduct, h, ht, hd, hc, hu]

/-- Facts common to every branch of `processSingleProduct`: the total and
processed counters are untouched, the four terminal buckets together grow
by exactly one, the checkpoint set only grows, the failed counter only
grows, and an item whose processing left the failed counter unchanged is
checkpointed afterwards. -/
theorem psp_outcome (o : Oracles) (s : AutomationState) (product : Product) :
    (processSingleProduct o s product).1.stats.total = s.stats.total ∧
    (processSingleProduct o s product).1.stats.processed = s.stats.processed ∧
    bucketSum (processSingleProduct o s product).1.stats = bucketSum s.stats + 1 ∧
    s.processedIds ⊆ (processSingleProduct o s product).1.processedIds ∧
    s.stats.failed ≤ (processSingleProduct o s product).1.stats.failed ∧
    ((processSingleProduct o s product).1.stats.failed = s.stats.failed →
      product.id ∈ (processSingleProduct o s product).1.processedIds) := by
  by_cases hmem : product.id ∈ s.processedIds
  · rw [psp_dup o s product hmem]
    refine ⟨rfl, rfl, by simp [bucketSum]; omega, fun x hx => hx, le_refl _,
      fun _ => hmem⟩
  · cases ht : o.refineTitle product.name with
    | none =>
      rw [psp_title_fail o s product hmem ht]
      exact ⟨rfl, rfl, by simp [bucketSum]; omega, fun x hx => hx,
        Nat.le_succ _, fun h => by simp at h⟩
    | some rt =>
      cases hd : o.refineDescription (get_og_description product) rt with
      | none =>
        rw [psp_desc_fail o s product hmem ht hd]
        exact ⟨rfl, rfl, by simp [bucketSum]; omega, fun x hx => hx,
          Nat.le_succ _, fun h => by simp at h⟩
      | some rd =>
        by_cases hc : pyLower rt = pyLower product.name ∧
            rd = get_og_description product
        · rw [psp_unchanged o s product hmem ht hd hc]
          exact ⟨rfl, rfl, by simp [bucketSum]; omega,
            fun x hx => Finset.mem_insert_of_mem hx, le_refl _,
            fun _ => Finset.mem_insert_self _ _⟩
        · cases hu : o.updateProduct product.id
            (build_update_data rt (generate_slug rt) rd) with
          | true =>
            rw [psp_update_success o s product hmem ht hd hc hu]
            exact ⟨rfl, rfl, by simp [bucketSum]; omega,
              fun x hx => Finset.mem_insert_of_mem hx, le_refl _,
              fun _ => Finset.mem_insert_self _ _⟩
          | false =>
            rw [psp_update_fail o s product hmem ht hd hc hu]
            exact ⟨rfl, rfl, by simp [bucketSum]; omega, fun x hx => hx,
              Nat.le_succ _, fun h => by simp at h⟩

/-! ## Lemmas about the run loop -/

/-- The state after one non-dry item: `process_single_product` followed by
`self.stats["processed"] += 1`. -/
def stepState (o : Oracles) (s : AutomationState) (product : Product) :
    AutomationState :=
  let r := processSingleProduct o s product
  { r.1 with stats := { r.1.stats with processed := r.1.stats.processed + 1 } }

theorem runGo_cons (o : Oracles) (dry_run : Bool) (product : Product)
    (rest : List Product) (s : AutomationState) :
    runGo o dry_run (product :: rest) s =
      (let step :=
        if dry_run then dryRunStep o s product
        else (stepState o s product, (processSingleProduct o s product).2.2)
       let r2 := runGo o dry_run rest step.1
       (r2.1, step.2 ++ r2.2)) := rfl

theorem runGo_false_cons (o : Oracles) (product : Product)
    (rest : List Product) (s : AutomationState) :
    runGo o false (product :: rest) s =
      ((runGo o false rest (stepState o s product)).1,
       (processSingleProduct o s product).2.2 ++
         (runGo o false rest (stepState o s product)).2) := rfl

/-- Aggregate statistics facts for the non-dry loop: total is preserved,
processed and the bucket sum each grow by the number of items, the
checkpoint set only grows, and the failed counter only grows. -/
theorem runGo_false_stats (o : Oracles) :
    ∀ (ps : List Product) (s : AutomationState),
      (runGo o false ps s).1.stats.total = s.stats.total ∧
      (runGo o false ps s).1.stats.processed = s.stats.processed + ps.length ∧
      bucketSum (runGo o false ps s).1.stats = bucketSum s.stats + ps.length ∧
      s.processedIds ⊆ (runGo o false ps s).1.processedIds ∧
      s.stats.failed ≤ (runGo o false ps s).1.stats.failed := by
  intro ps
  induction ps with
  | nil => intro s; simp [runGo]
  | cons product rest ih =>
    intro s
    rw [runGo_false_cons]
    obtain ⟨ht, hp, hb, hsub, hf⟩ := ih (stepState o s product)
    obtain ⟨pt, pp, pb, psub, pf, _⟩ := psp_outcome o s product
    have hstep_t : (stepState o s product).stats.total = s.stats.total := by
      simp [stepState, pt]
    have hstep_p : (stepState o s product).stats.processed =
        s.stats.processed + 1 := by
      simp [stepState, pp]
    have hstep_b : bucketSum (stepState o s product).stats =
        bucketSum s.stats + 1 := by
      simpa [stepState, bucketSum] using pb
    have hstep_f : s.stats.failed ≤ (stepState o s product).stats.failed := by
      simpa [stepState] using pf
    have hstep_sub : s.processedIds ⊆ (stepState o s product).processedIds := by
      simpa [stepState] using psub
    refine ⟨by rw [ht, hstep_t], by rw [hp, hstep_p]; simp; omega,
      by rw [hb, hstep_b]; simp; omega,
      fun x hx => hsub (hstep_sub hx), le_trans hstep_f hf⟩

/-- If the whole non-dry loop left the failed counter unchanged, every
iterated item ends up in the checkpoint set. -/
theorem runGo_false_no_fail_checkpoints (o : Oracles) :
    ∀ (ps : List Product) (s : AutomationState),
      (runGo o false ps s).1.stats.failed = s.stats.failed →
      ∀ p ∈ ps, p.id ∈ (runGo o false ps s).1.processedIds := by
  intro ps
  induction ps with
  | nil => intro s _ p hp; simp at hp
  | cons q rest ih =>
    intro s hnf p hp
    obtain ⟨_, _, _, _, pf, pckpt⟩ := psp_outcome o s q
    have hrest := runGo_false_stats o rest (stepState o s q)
    have hstep_f : (stepState o s q).stats.failed =
        (processSingleProduct o s q).1.stats.failed := rfl
    have hfin : (runGo o false (q :: rest) s).1 =
        (runGo o false rest (stepState o s q)).1 := rfl
    rw [hfin] at hnf ⊢
    have hmono := hrest.2.2.2.2
    have heq_step : (stepState o s q).stats.failed = s.stats.failed := by omega
    rcases List.mem_cons.mp hp with h1 | h1
    · have hmem := pckpt (by rw [← hstep_f, heq_step])
      have hmem' : p.id ∈ (stepState o s q).processedIds := by
        subst h1; simpa [stepState] using hmem
      exact hrest.2.2.2.1 hmem'
    · exact ih (stepState o s q) (by omega) p h1

/-- If every iterated item is already checkpointed, the non-dry loop only
counts duplicates: no state change except the two counters, and no external
calls at all. -/
theorem runGo_false_all_dup (o : Oracles) :
    ∀ (ps : List Product) (s : AutomationState),
      (∀ p ∈ ps, p.id ∈ s.processedIds) →
      runGo o false ps s =
        ({ s with stats := { s.stats with
            skippedDuplicate := s.stats.skippedDuplicate + ps.length,
            processed := s.stats.processed + ps.length } }, []) := by
  intro ps
  induction ps with
  | nil =>
    intro s _
    simp [runGo]
  | cons product rest ih =>
    intro s hall
    rw [runGo_false_cons]
    have hmem : product.id ∈ s.processedIds :=
      hall product (List.mem_cons_self _ _)
    have hstep : stepState o s product =
        { s with stats := { s.stats with
            skippedDuplicate := s.stats.skippedDuplicate + 1,
            processed := s.stats.processed + 1 } } := by
      simp [stepState, psp_dup o s product hmem]
    have hrest : ∀ p ∈ rest, p.id ∈ (stepState o s product).processedIds := by
      intro p hp
      rw [hstep]
      exact hall p (List.mem_cons_of_mem _ hp)
    rw [psp_dup o s product hmem, ih (stepState o s product) hrest, hstep]
    obtain ⟨ids, logs, ⟨t, pr, u, sd, su, f⟩⟩ := s
    simp
    omega

/-- The dry-run body never touches the checkpoint set or the audit log and
never produces an `applyUpdateCall`. -/
theorem dryRunStep_frame (o : Oracles) (s : AutomationState) (product : Product) :
    (dryRunStep o s product).1.processedIds = s.processedIds ∧
    (dryRunStep o s product).1.logs = s.logs ∧
    ∀ i d, Event.applyUpdateCall i d ∉ (dryRunStep o s product).2 := by
  by_cases hmem : product.id ∈ s.processedIds
  · simp [dryRunStep, hmem]
  · cases ht : o.refineTitle product.name with
    | none => simp [dryRunStep, hmem, ht]
    | some rt =>
      by_cases he : rt = ""
      · simp [dryRunStep, hmem, ht, he]
      · simp [dryRunStep, hmem, ht, he]

/-- The dry-run loop never touches the checkpoint set or the audit log and
never produces an `applyUpdateCall`. -/
theorem runGo_true_frame (o : Oracles) :
    ∀ (ps : List Product) (s : AutomationState),
      (runGo o true ps s).1.processedIds = s.processedIds ∧
      (runGo o true ps s).1.logs = s.logs ∧
      ∀ i d, Event.applyUpdateCall i d ∉ (runGo o true ps s).2 := by
  intro ps
  induction ps with
  | nil => intro s; simp [runGo]
  | cons product rest ih =>
    intro s
    have hcons : runGo o true (product :: rest) s =
        ((runGo o true rest (dryRunStep o s product).1).1,
         (dryRunStep o s product).2 ++
           (runGo o true rest (dryRunStep o s product).1).2) := rfl
    rw [hcons]
    obtain ⟨h1, h2, h3⟩ := dryRunStep_frame o s product
    obtain ⟨g1, g2, g3⟩ := ih (dryRunStep o s product).1
    refine ⟨by rw [g1, h1], by rw [g2, h2], ?_⟩
    intro i d hmem
    rcases List.mem_append.mp hmem with h | h
    · exact h3 i d h
    · exact g3 i d h

/-! ## Lemmas about the retry loops -/

theorem openaiRetryGo_all_fail (oc : Nat → OpenAIAttemptOutcome) (mr : Nat)
    (δ : ℚ) (h : ∀ i, oc i = OpenAIAttemptOutcome.transientError) :
    ∀ (remaining attempt : Nat), attempt + remaining = mr →
      openaiRetryGo oc mr δ attempt remaining =
        (none, remaining, List.replicate (remaining - 1) (δ * 2)) := by
  intro remaining
  induction remaining with
  | zero => intro attempt _; rfl
  | succ r ihr =>
    intro attempt hsum
    simp only [openaiRetryGo, h attempt]
    cases r with
    | zero =>
      have hge : ¬ attempt < mr - 1 := by omega
      simp [hge]
    | succ r' =>
      have hlt : attempt < mr - 1 := by omega
      simp only [hlt, if_true]
      rw [ihr (attempt + 1) (by omega)]
      simp [List.replicate_succ]

theorem updateProductRetryGo_all_fail (oc : Nat → Bool) (mr : Nat) (δ : ℚ)
    (h : ∀ i, oc i = false) :
    ∀ (remaining attempt : Nat), attempt + remaining = mr →
      updateProductRetryGo oc mr δ attempt remaining =
        (false, remaining, List.replicate (remaining - 1) (δ * 2)) := by
  intro remaining
  induction remaining with
  | zero => intro attempt _; rfl
  | succ r ihr =>
    intro attempt hsum
    simp only [updateProductRetryGo, h attempt]
    cases r with
    | zero =>
      have hge : ¬ attempt < mr - 1 := by omega
      simp [hge]
    | succ r' =>
      have hlt : attempt < mr - 1 := by omega
      simp only [hlt, if_true, Bool.false_eq_true, if_false]
      rw [ihr (attempt + 1) (by omega)]
      simp [List.replicate_succ]

/-- C7: a collaborator failing transiently on every attempt causes exactly
`max_retries` attempts (default 3 in `script_config`), with a sleep of
`delay_between_requests * 2` between consecutive attempts, after which each
client returns its typed non-fatal outcome (`none` for the OpenAI request,
`false` for the product update); both loops are total functions, so no
exception escapes the client boundary. -/
theorem retry_exhaustion (mr : Nat) (δ : ℚ) (oc1 : Nat → OpenAIAttemptOutcome)
    (oc2 : Nat → Bool)
    (h1 : ∀ i, oc1 i = OpenAIAttemptOutcome.transientError)
    (h2 : ∀ i, oc2 i = false) :
    make_openai_request oc1 mr δ = (none, mr, List.replicate (mr - 1) (δ * 2)) ∧
    update_product oc2 mr δ = (false, mr, List.replicate (mr - 1) (δ * 2)) ∧
    script_config.max_retries = 3 ∧
    script_config.delay_between_requests = 1 :=
  ⟨openaiRetryGo_all_fail oc1 mr δ h1 mr 0 (by omega),
   updateProductRetryGo_all_fail oc2 mr δ h2 mr 0 (by omega),
   rfl, rfl⟩

/-- C7 witness: the default configuration (3 attempts, delay 1) on
always-failing collaborators. -/
theorem retry_exhaustion_witness :
    make_openai_request (fun _ => OpenAIAttemptOutcome.transientError) 3 1 =
      (none, 3, List.replicate (3 - 1) ((1 : ℚ) * 2)) ∧
    update_product (fun _ => false) 3 1 =
      (false, 3, List.replicate (3 - 1) ((1 : ℚ) * 2)) :=
  ⟨(retry_exhaustion 3 1 _ _ (fun _ => rfl) (fun _ => rfl)).1,
   (retry_exhaustion 3 1 _ _ (fun _ => rfl) (fun _ => rfl)).2.1⟩

/-! ## Lemmas about pagination -/

theorem getAllGo_concat {α : Type} (pages : Nat → List α) (hdr : Nat → Nat)
    (N : Nat) (hhdr : ∀ p, hdr p = N) :
    ∀ (fuel page : Nat), 1 ≤ page → page ≤ N →
      (∀ q, page ≤ q → q ≤ N → pages q ≠ []) →
      N + 1 - page ≤ fuel →
      get_all_productsGo pages hdr fuel page =
        (((List.range' page (N + 1 - page)).map pages).flatten,
         List.range' page (N + 1 - page)) := by
  intro fuel
  induction fuel with
  | zero => intro page _ h2 _ hf; omega
  | succ f ih =>
    intro page h1 h2 hne hf
    have hpe : pages page ≠ [] := hne page le_rfl h2
    have hemp : (pages page).isEmpty = false := by
      cases hx : pages page with
      | nil => exact absurd hx hpe
      | cons a t => rfl
    simp only [get_all_productsGo, hemp, Bool.false_eq_true, if_false, hhdr page]
    by_cases hstop : N ≤ page
    · have hlen : N + 1 - page = 1 := by omega
      rw [hlen]
      simp [hstop, List.range'_one]
    · have hlt : page < N := lt_of_not_ge hstop
      simp only [hstop, if_false]
      rw [ih (page + 1) (by omega) (by omega)
        (fun q hq1 hq2 => hne q (by omega) hq2) (by omega)]
      have hk : N + 1 - page = (N - page) + 1 := by omega
      have hk2 : N + 1 - (page + 1) = N - page := by omega
      rw [hk, hk2, List.range'_succ]
      simp

/-- C8: `get_all_products` requests successive pages starting at 1 and
returns the concatenation of all pages in order.  The first conjunct covers
the header-driven stop (a source consistently reporting `N` total pages
with non-empty pages yields pages `1..N` concatenated, given enough fuel);
the remaining conjuncts cover the empty-page stop: a source returning
pages of 2, 2 and 1 items and then an empty page (while still advertising
more pages) yields exactly the 5 items, in order. -/
theorem pagination_concatenation {α : Type} (pages : Nat → List α)
    (hdr : Nat → Nat) (N fuel : Nat) (hN : 1 ≤ N) (hhdr : ∀ p, hdr p = N)
    (hne : ∀ p, 1 ≤ p → p ≤ N → pages p ≠ []) (hfuel : N ≤ fuel) :
    get_all_products pages hdr fuel =
      (((List.range' 1 N).map pages).flatten, List.range' 1 N) ∧
    (get_all_products
        (fun p => if p = 1 then [1, 2] else if p = 2 then [3, 4]
                  else if p = 3 then [5] else ([] : List Nat))
        (fun _ => 10) 10).1 = [1, 2, 3, 4, 5] ∧
    ((get_all_products
        (fun p => if p = 1 then [1, 2] else if p = 2 then [3, 4]
                  else if p = 3 then [5] else ([] : List Nat))
        (fun _ => 10) 10).1).length = 5 := by
  refine ⟨?_, by decide, by decide⟩
  have h := getAllGo_concat pages hdr N hhdr fuel 1 le_rfl hN hne (by omega)
  simpa [get_all_products] using h

/-- C8 witness: the general conjunct of `pagination_concatenation` applied
to a one-page source, together with the concrete 2/2/1/empty scenario. -/
theorem pagination_concatenation_witness :
    get_all_products (fun _ => [7]) (fun _ => (1 : Nat)) 1 =
      (((List.range' 1 1).map (fun _ => [7])).flatten, List.range' 1 1) ∧
    (get_all_products
        (fun p => if p = 1 then [1, 2] else if p = 2 then [3, 4]
                  else if p = 3 then [5] else ([] : List Nat))
        (fun _ => 10) 10).1 = [1, 2, 3, 4, 5] :=
  ⟨(pagination_concatenation (fun _ => [7]) (fun _ => (1 : Nat)) 1 1 le_rfl
      (fun _ => rfl) (fun _ _ _ => by simp) le_rfl).1,
   (pagination_concatenation (fun _ => [7]) (fun _ => (1 : Nat)) 1 1 le_rfl
      (fun _ => rfl) (fun _ _ _ => by simp) le_rfl).2.1⟩

/-! ## Durable-store loading -/

/-- C9 counterexample: a corrupt (unreadable or malformed) audit-log file
does NOT produce a warning — `UpdateLogger._load_logs` returns the empty
list silently, contradicting the claim that the component logs a warning
in that case. -/
theorem corrupt_audit_log_warning_counterexample :
    ¬ ((loadLogs FileState.corrupt).2 = true) := by decide

/-- C9 (amended): a missing, unreadable or malformed store file never
raises — loading always succeeds.  A corrupt checkpoint file yields the
empty set with a warning; a corrupt audit-log file yields the empty list
silently; absent files yield empty state with no warning; valid files load
their data. -/
theorem corrupt_store_nonfatal :
    loadCheckpoint FileState.corrupt = (∅, true) ∧
    loadCheckpoint FileState.absent = (∅, false) ∧
    loadLogs FileState.corrupt = ([], false) ∧
    loadLogs FileState.absent = ([], false) ∧
    (∀ ids : List Nat, loadCheckpoint (FileState.valid ids) = (ids.toFinset, false)) ∧
    (∀ entries : List LogEntry, loadLogs (FileState.valid entries) = (entries, false)) :=
  ⟨rfl, rfl, rfl, rfl, fun _ => rfl, fun _ => rfl⟩

/-! ## Claim theorems about the pipeline -/

theorem run_unfold (o : Oracles) (d : Bool) (limit : Option Nat)
    (products : List Product) (s : AutomationState) (hp : products ≠ []) :
    run o d limit products s =
      runGo o d (applyLimit limit products)
        { s with stats :=
            { s.stats with total := (applyLimit limit products).length } } := by
  simp [run, hp]

/-- C3: an item whose identifier is already checkpointed is skipped before
any external call: the outcome is exactly a bump of the skipped-duplicate
counter, the return value `True`, and an empty call trace — no
refinement-service call, no `applyUpdate` call, no audit entry, no
checkpoint change. -/
theorem duplicate_short_circuit (o : Oracles) (s : AutomationState)
    (p : Product) (h : p.id ∈ s.processedIds) :
    processSingleProduct o s p =
      ({ s with stats :=
          { s.stats with skippedDuplicate := s.stats.skippedDuplicate + 1 } },
       true, []) :=
  psp_dup o s p h

/-- C3 witness: a concrete already-processed item. -/
theorem duplicate_short_circuit_witness :
    processSingleProduct
        ⟨fun t => some t, fun d _ => some d, fun _ _ => true, 0⟩
        ⟨{7}, [], initStats⟩ ⟨7, "T", none⟩ =
      ({ (⟨{7}, [], initStats⟩ : AutomationState) with stats :=
          { initStats with skippedDuplicate := initStats.skippedDuplicate + 1 } },
       true, []) :=
  duplicate_short_circuit
    ⟨fun t => some t, fun d _ => some d, fun _ _ => true, 0⟩
    ⟨{7}, [], initStats⟩ ⟨7, "T", none⟩ (by decide)

/-- C2: when an item fails (absent refined title, absent refined
description, or `applyUpdate` returning failure after its retries), the
checkpoint set and the audit log are unchanged, the failed counter is
incremented, the per-item call returns `False`, and the loop goes on to
process the remaining items. -/
theorem failure_not_checkpointed (o : Oracles) (s : AutomationState)
    (p : Product) (rest : List Product)
    (hmem : p.id ∉ s.processedIds)
    (hfail :
      o.refineTitle p.name = none ∨
      (∃ rt, o.refineTitle p.name = some rt ∧
        o.refineDescription (get_og_description p) rt = none) ∨
      (∃ rt rd, o.refineTitle p.name = some rt ∧
        o.refineDescription (get_og_description p) rt = some rd ∧
        ¬(pyLower rt = pyLower p.name ∧ rd = get_og_description p) ∧
        o.updateProduct p.id (build_update_data rt (generate_slug rt) rd) = false)) :
    (processSingleProduct o s p).1.processedIds = s.processedIds ∧
    (processSingleProduct o s p).1.logs = s.logs ∧
    (processSingleProduct o s p).1.stats.failed = s.stats.failed + 1 ∧
    (processSingleProduct o s p).2.1 = false ∧
    runGo o false (p :: rest) s =
      ((runGo o false rest (stepState o s p)).1,
       (processSingleProduct o s p).2.2 ++
         (runGo o false rest (stepState o s p)).2) := by
  have he : (processSingleProduct o s p).1.processedIds = s.processedIds ∧
      (processSingleProduct o s p).1.logs = s.logs ∧
      (processSingleProduct o s p).1.stats.failed = s.stats.failed + 1 ∧
      (processSingleProduct o s p).2.1 = false := by
    rcases hfail with ht | ⟨rt, ht, hd⟩ | ⟨rt, rd, ht, hd, hc, hu⟩
    · rw [psp_title_fail o s p hmem ht]; exact ⟨rfl, rfl, rfl, rfl⟩
    · rw [psp_desc_fail o s p hmem ht hd]; exact ⟨rfl, rfl, rfl, rfl⟩
    · rw [psp_update_fail o s p hmem ht hd hc hu]; exact ⟨rfl, rfl, rfl, rfl⟩
  exact ⟨he.1, he.2.1, he.2.2.1, he.2.2.2, runGo_false_cons o p rest s⟩

/-- C2 witness: a refinement service that always returns absent. -/
theorem failure_not_checkpointed_witness :
    (processSingleProduct ⟨fun _ => none, fun _ _ => none, fun _ _ => true, 0⟩
        initState ⟨1, "T", none⟩).1.processedIds = initState.processedIds ∧
    (processSingleProduct ⟨fun _ => none, fun _ _ => none, fun _ _ => true, 0⟩
        initState ⟨1, "T", none⟩).1.logs = initState.logs ∧
    (processSingleProduct ⟨fun _ => none, fun _ _ => none, fun _ _ => true, 0⟩
        initState ⟨1, "T", none⟩).1.stats.failed = initState.stats.failed + 1 ∧
    (processSingleProduct ⟨fun _ => none, fun _ _ => none, fun _ _ => true, 0⟩
        initState ⟨1, "T", none⟩).2.1 = false ∧
    runGo ⟨fun _ => none, fun _ _ => none, fun _ _ => true, 0⟩ false
        [⟨1, "T", none⟩] initState =
      ((runGo ⟨fun _ => none, fun _ _ => none, fun _ _ => true, 0⟩ false []
          (stepState ⟨fun _ => none, fun _ _ => none, fun _ _ => true, 0⟩
            initState ⟨1, "T", none⟩)).1,
       (processSingleProduct ⟨fun _ => none, fun _ _ => none, fun _ _ => true, 0⟩
          initState ⟨1, "T", none⟩).2.2 ++
         (runGo ⟨fun _ => none, fun _ _ => none, fun _ _ => true, 0⟩ false []
            (stepState ⟨fun _ => none, fun _ _ => none, fun _ _ => true, 0⟩
              initState ⟨1, "T", none⟩)).2) :=
  failure_not_checkpointed _ initState ⟨1, "T", none⟩ [] (by decide) (Or.inl rfl)

/-- C4: with both refinements present, the no-op branch is taken exactly
when the refined title matches the original case-insensitively AND the
refined description matches the original exactly; on that branch the item
is checkpointed, the skipped-unchanged counter is bumped, and the call
trace contains the two refinement calls but no `applyUpdate` call and no
audit append. -/
theorem change_detection (o : Oracles) (s : AutomationState) (p : Product)
    (rt rd : String) (hmem : p.id ∉ s.processedIds)
    (ht : o.refineTitle p.name = some rt)
    (hd : o.refineDescription (get_og_description p) rt = some rd) :
    ((processSingleProduct o s p).1.stats.skippedUnchanged =
        s.stats.skippedUnchanged + 1 ↔
      (pyLower rt = pyLower p.name ∧ rd = get_og_description p)) ∧
    ((pyLower rt = pyLower p.name ∧ rd = get_og_description p) →
      processSingleProduct o s p =
        ({ s with
            processedIds := insert p.id s.processedIds,
            stats := { s.stats with
              skippedUnchanged := s.stats.skippedUnchanged + 1 } },
         true,
         [Event.refineTitleCall p.name,
          Event.refineDescriptionCall (get_og_description p) rt])) := by
  by_cases hc : pyLower rt = pyLower p.name ∧ rd = get_og_description p
  · rw [psp_unchanged o s p hmem ht hd hc]
    exact ⟨⟨fun _ => hc, fun _ => rfl⟩, fun _ => rfl⟩
  · refine ⟨⟨fun h => ?_, fun h => absurd h hc⟩, fun h => absurd h hc⟩
    cases hu : o.updateProduct p.id (build_update_data rt (generate_slug rt) rd) with
    | true =>
      rw [psp_update_success o s p hmem ht hd hc hu] at h
      simp at h
    | false =>
      rw [psp_update_fail o s p hmem ht hd hc hu] at h
      simp at h

/-- C4 witness: an echoing refinement service produces a case-identical
title and identical description, so the no-op branch is taken. -/
theorem change_detection_witness :
    ((processSingleProduct ⟨fun t => some t, fun d _ => some d, fun _ _ => true, 0⟩
        initState ⟨1, "T", some "D"⟩).1.stats.skippedUnchanged =
        initState.stats.skippedUnchanged + 1 ↔
      (pyLower "T" = pyLower (Product.name ⟨1, "T", some "D"⟩) ∧
        "D" = get_og_description ⟨1, "T", some "D"⟩)) ∧
    ((pyLower "T" = pyLower (Product.name ⟨1, "T", some "D"⟩) ∧
        "D" = get_og_description ⟨1, "T", some "D"⟩) →
      processSingleProduct ⟨fun t => some t, fun d _ => some d, fun _ _ => true, 0⟩
          initState ⟨1, "T", some "D"⟩ =
        ({ initState with
            processedIds := insert (Product.id ⟨1, "T", some "D"⟩) initState.processedIds,
            stats := { initState.stats with
              skippedUnchanged := initState.stats.skippedUnchanged + 1 } },
         true,
         [Event.refineTitleCall (Product.name ⟨1, "T", some "D"⟩),
          Event.refineDescriptionCall (get_og_description ⟨1, "T", some "D"⟩) "T"])) :=
  change_detection ⟨fun t => some t, fun d _ => some d, fun _ _ => true, 0⟩
    initState ⟨1, "T", some "D"⟩ "T" "D" (by decide) rfl rfl

/-- C6: a preview (dry-run) run is read-only with respect to durable state:
whatever the catalog, the limit and the collaborators do, the checkpoint
set and the audit log afterwards equal their pre-run contents, and the
call trace contains no `applyUpdate` call. -/
theorem preview_run_read_only (o : Oracles) (limit : Option Nat)
    (products : List Product) (s : AutomationState) :
    (run o true limit products s).1.processedIds = s.processedIds ∧
    (run o true limit products s).1.logs = s.logs ∧
    ∀ i d, Event.applyUpdateCall i d ∉ (run o true limit products s).2 := by
  by_cases hp : products = []
  · subst hp; simp [run]
  · rw [run_unfold o true limit products s hp]
    obtain ⟨h1, h2, h3⟩ := runGo_true_frame o (applyLimit limit products)
      { s with stats :=
          { s.stats with total := (applyLimit limit products).length } }
    exact ⟨h1, h2, h3⟩

/-- C6 witness: a concrete preview run over a non-empty catalog. -/
theorem preview_run_read_only_witness :
    (run ⟨fun t => some t, fun d _ => some d, fun _ _ => true, 0⟩ true none
        [⟨1, "T", none⟩] initState).1.processedIds = initState.processedIds ∧
    (run ⟨fun t => some t, fun d _ => some d, fun _ _ => true, 0⟩ true none
        [⟨1, "T", none⟩] initState).1.logs = initState.logs :=
  ⟨(preview_run_read_only _ none [⟨1, "T", none⟩] initState).1,
   (preview_run_read_only ⟨fun t => some t, fun d _ => some d, fun _ _ => true, 0⟩
      none [⟨1, "T", none⟩] initState).2.1⟩

/-- C10: starting from zero statistics, every item that
`process_single_product` handles bumps exactly one of the four terminal
buckets (their sum grows by one) and leaves the processed counter to the
run loop; at the end of a completed non-preview run
updated + skipped-duplicate + skipped-unchanged + failed = processed =
total. -/
theorem stats_partition (o : Oracles) (limit : Option Nat)
    (products : List Product) (s : AutomationState) (h0 : s.stats = initStats) :
    (∀ (s' : AutomationState) (p : Product),
      bucketSum (processSingleProduct o s' p).1.stats = bucketSum s'.stats + 1 ∧
      (processSingleProduct o s' p).1.stats.processed = s'.stats.processed) ∧
    bucketSum (run o false limit products s).1.stats =
      (run o false limit products s).1.stats.processed ∧
    (run o false limit products s).1.stats.processed =
      (run o false limit products s).1.stats.total := by
  refine ⟨fun s' p => ⟨(psp_outcome o s' p).2.2.1, (psp_outcome o s' p).2.1⟩, ?_⟩
  by_cases hp : products = []
  · subst hp
    simp [run, h0, initStats, bucketSum]
  · rw [run_unfold o false limit products s hp]
    obtain ⟨ht, hpr, hb, _, _⟩ := runGo_false_stats o (applyLimit limit products)
      { s with stats :=
          { s.stats with total := (applyLimit limit products).length } }
    constructor
    · rw [hb, hpr]
      simp [h0, bucketSum, initStats]
    · rw [hpr, ht]
      simp [h0, initStats]

/-- C10 witness: a concrete completed run with one updated item. -/
theorem stats_partition_witness :
    bucketSum (run ⟨fun t => some (t ++ "!"), fun d _ => some d, fun _ _ => true, 3⟩
        false none [⟨1, "T", some "D"⟩] initState).1.stats =
      (run ⟨fun t => some (t ++ "!"), fun d _ => some d, fun _ _ => true, 3⟩
        false none [⟨1, "T", some "D"⟩] initState).1.stats.processed ∧
    (run ⟨fun t => some (t ++ "!"), fun d _ => some d, fun _ _ => true, 3⟩
        false none [⟨1, "T", some "D"⟩] initState).1.stats.processed =
      (run ⟨fun t => some (t ++ "!"), fun d _ => some d, fun _ _ => true, 3⟩
        false none [⟨1, "T", some "D"⟩] initState).1.stats.total :=
  (stats_partition ⟨fun t => some (t ++ "!"), fun d _ => some d, fun _ _ => true, 3⟩
    none [⟨1, "T", some "D"⟩] initState rfl).2

/-- C1 counterexample: if the first run contains a failure, the second run
is NOT all skipped-duplicate.  With a refinement service that always
returns absent, a one-item catalog fails in run one, is not checkpointed,
and in the second run is counted as failed again (skipped-duplicate stays
0 while the catalog has 1 item), refuting the claim as stated for runs
containing failures. -/
theorem second_run_counterexample :
    (run ⟨fun _ => none, fun _ _ => none, fun _ _ => true, 0⟩ false none
        [⟨1, "T", none⟩]
        { (run ⟨fun _ => none, fun _ _ => none, fun _ _ => true, 0⟩ false none
            [⟨1, "T", none⟩] initState).1 with
          stats := initStats }).1.stats.skippedDuplicate = 0 ∧
    (run ⟨fun _ => none, fun _ _ => none, fun _ _ => true, 0⟩ false none
        [⟨1, "T", none⟩]
        { (run ⟨fun _ => none, fun _ _ => none, fun _ _ => true, 0⟩ false none
            [⟨1, "T", none⟩] initState).1 with
          stats := initStats }).1.stats.failed = 1 ∧
    (applyLimit none [⟨1, "T", none⟩]).length = 1 ∧
    (run ⟨fun _ => none, fun _ _ => none, fun _ _ => true, 0⟩ false none
        [⟨1, "T", none⟩]
        { (run ⟨fun _ => none, fun _ _ => none, fun _ _ => true, 0⟩ false none
            [⟨1, "T", none⟩] initState).1 with
          stats := initStats }).1.stats.skippedDuplicate ≠
      (applyLimit none [⟨1, "T", none⟩]).length := by
  decide

/-- C1 (amended): if the first completed run had zero failed items, then a
second run over the same catalog with the same checkpoint store makes no
external call at all (in particular zero `applyUpdate` calls), appends
nothing to the audit log, leaves the checkpoint set unchanged, and counts
every item as skipped-duplicate. -/
theorem second_run_idempotent (o1 o2 : Oracles) (limit : Option Nat)
    (products : List Product) (s0 : AutomationState)
    (h0 : s0.stats = initStats)
    (hnf : (run o1 false limit products s0).1.stats.failed = 0) :
    run o2 false limit products
        { (run o1 false limit products s0).1 with stats := initStats } =
      ({ (run o1 false limit products s0).1 with
          stats := { initStats with
            total := (applyLimit limit products).length,
            processed := (applyLimit limit products).length,
            skippedDuplicate := (applyLimit limit products).length } },
       []) := by
  by_cases hp : products = []
  · subst hp
    cases limit with
    | none => simp [run, applyLimit, initStats]
    | some n => by_cases hn : n = 0 <;> simp [run, applyLimit, hn, initStats]
  · have hall : ∀ p ∈ applyLimit limit products,
        p.id ∈ (run o1 false limit products s0).1.processedIds := by
      intro p hp'
      rw [run_unfold o1 false limit products s0 hp]
      apply runGo_false_no_fail_checkpoints o1 (applyLimit limit products) _ _ p hp'
      have h1 : (runGo o1 false (applyLimit limit products)
          { s0 with stats := { s0.stats with
              total := (applyLimit limit products).length } }).1.stats.failed = 0 := by
        rw [← run_unfold o1 false limit products s0 hp]
        exact hnf
      rw [h1]
      simp [h0, initStats]
    rw [run_unfold o2 false limit products _ hp]
    rw [runGo_false_all_dup o2 (applyLimit limit products)
      { ({ (run o1 false limit products s0).1 with
            stats := initStats } : AutomationState) with
        stats := { ({ (run o1 false limit products s0).1 with
            stats := initStats } : AutomationState).stats with
          total := (applyLimit limit products).length } }
      (by intro p hp'; exact hall p hp')]
    simp [initStats]

/-- C1 witness: an echoing refinement service makes every item
skipped-unchanged in run one (zero failures), so run two is pure
skipped-duplicate. -/
theorem second_run_idempotent_witness :
    run ⟨fun t => some t, fun d _ => some d, fun _ _ => true, 0⟩ false none
        [⟨1, "T", some "D"⟩]
        { (run ⟨fun t => some t, fun d _ => some d, fun _ _ => true, 0⟩ false none
            [⟨1, "T", some "D"⟩] initState).1 with stats := initStats } =
      ({ (run ⟨fun t => some t, fun d _ => some d, fun _ _ => true, 0⟩ false none
            [⟨1, "T", some "D"⟩] initState).1 with
          stats := { initStats with
            total := (applyLimit none [⟨1, "T", some "D"⟩]).length,
            processed := (applyLimit none [⟨1, "T", some "D"⟩]).length,
            skippedDuplicate := (applyLimit none [⟨1, "T", some "D"⟩]).length } },
       []) :=
  second_run_idempotent ⟨fun t => some t, fun d _ => some d, fun _ _ => true, 0⟩
    ⟨fun t => some t, fun d _ => some d, fun _ _ => true, 0⟩ none
    [⟨1, "T", some "D"⟩] initState rfl (by decide)

end WkReifen
